import Mathlib

/-!
Verification development for the sales-export HTTP service (`main.py`).

The service exposes two read-only handlers over a Mongo collection of sales
documents:

* `get_sales` (route `/api/sales`, query `format`, default `"csv"`): loads
  every document, recomputes the `net` column row-by-row as
  `x["sale"] if x["rebate"] == 0 else x["rebate"]`, then either serializes the
  frame as `|`-separated CSV text or validates each row into a `Sale`
  pydantic model.
* `get_sales_for_period` (route `/api/sales/{month}/{year}`): validates the
  month (lower-cased, against the twelve month names) and the year (against
  `2022`/`2023`), raising HTTP 404 with detail `"Month not found"` or
  `"Year not found"`; then loads the documents whose `key` matches the
  case-insensitive regex `f"{month}-{year}$"` and returns them as
  comma-separated CSV with media type `text/csv` and a
  `Content-Disposition: attachment; filename=export.csv` header.

Modelling conventions (shallow embedding):

* A stored document is a `RawRecord`: each of the 23 Sale columns is an
  `Option`-typed field, `none` meaning the field is absent from the document
  (documents with extra fields beyond the Sale schema are not modelled).
* The pandas frame built from the fetched documents has a column exactly when
  some fetched document carries the field (`present`).  A cell of a record
  that lacks a present column is NaN; for float-typed columns NaN is modelled
  as `none`, and in CSV output NaN renders as the empty cell.
* Machine floats are modelled as `ℚ`; the float NaN arising from a missing
  cell is the `none` of an `Option ℚ`.  Numeric cells are rendered with
  `toString`, abstracting the dtype-dependent number formatting of pandas.
* `month.lower()` and the case-insensitive regex option are modelled by
  ASCII lower-casing (`Char.toLower`); all month and year literals are ASCII.
* The row lambda of `get_sales` indexes `x["rebate"]` (and `x["sale"]` when
  the rebate is zero).  When the indexed column is absent from the whole
  frame this raises `KeyError` and the request fails; `applyNet` returns
  `none` in exactly those situations.  An empty collection produces a frame
  with no columns, which also fails (modelled by the same guard).
* pydantic v1 validation of `Sale(**row)`: a key absent from the row dict is
  a `field required` error; a NaN cell coerces to the string `"nan"` for
  `str`-typed fields, passes through for float-typed fields, and fails for
  the `int`, `datetime`, `ObjectId` and `dict` typed fields.  A missing
  `_id` column is filled by the default factory, modelled as a fixed
  object id.  Unhandled errors (HTTP 500) are `Option.none` results.
* datetimes are kept opaque as strings.
-/

set_option maxRecDepth 16384

/-- One column of the sales frame, in the order the Sale schema declares the
fields (which is the order of the keys of a shape-conforming document, hence
the frame column order). -/
inductive Col
  | cId | cKey | cDistribution | cRep | cItem | cSale | cQuantity | cUom
  | cDate | cCustomer | cShipToName | cAddr1 | cAddr2 | cCity | cState
  | cPostal | cCountry | cContract | cCustNbr | cNotes | cGpo | cRebate | cNet
deriving DecidableEq, Repr

/-- All columns in schema order. -/
def allCols : List Col :=
  [Col.cId, Col.cKey, Col.cDistribution, Col.cRep, Col.cItem, Col.cSale,
   Col.cQuantity, Col.cUom, Col.cDate, Col.cCustomer, Col.cShipToName,
   Col.cAddr1, Col.cAddr2, Col.cCity, Col.cState, Col.cPostal, Col.cCountry,
   Col.cContract, Col.cCustNbr, Col.cNotes, Col.cGpo, Col.cRebate, Col.cNet]

/-- The header name of a column, as `df.to_csv` writes it. -/
def colName : Col → String
  | Col.cId => "_id"
  | Col.cKey => "key"
  | Col.cDistribution => "distribution"
  | Col.cRep => "rep"
  | Col.cItem => "item"
  | Col.cSale => "sale"
  | Col.cQuantity => "quantity"
  | Col.cUom => "uom"
  | Col.cDate => "date"
  | Col.cCustomer => "customer"
  | Col.cShipToName => "ship_to_name"
  | Col.cAddr1 => "addr1"
  | Col.cAddr2 => "addr2"
  | Col.cCity => "city"
  | Col.cState => "state"
  | Col.cPostal => "postal"
  | Col.cCountry => "country"
  | Col.cContract => "contract"
  | Col.cCustNbr => "cust_nbr"
  | Col.cNotes => "notes"
  | Col.cGpo => "gpo"
  | Col.cRebate => "rebate"
  | Col.cNet => "net"

/-- A stored sales document, restricted to the Sale schema fields.  A `none`
field is absent from the document. -/
structure RawRecord where
  id : Option String
  key : Option String
  distribution : Option String
  rep : Option String
  item : Option String
  sale : Option ℚ
  quantity : Option Int
  uom : Option String
  date : Option String
  customer : Option String
  ship_to_name : Option String
  addr1 : Option String
  addr2 : Option String
  city : Option String
  state : Option String
  postal : Option String
  country : Option String
  contract : Option String
  cust_nbr : Option String
  notes : Option (List (String × String))
  gpo : Option String
  rebate : Option ℚ
  net : Option ℚ
deriving DecidableEq, Repr

/-- Whether the document carries the given field. -/
def rawHas (r : RawRecord) : Col → Bool
  | Col.cId => r.id.isSome
  | Col.cKey => r.key.isSome
  | Col.cDistribution => r.distribution.isSome
  | Col.cRep => r.rep.isSome
  | Col.cItem => r.item.isSome
  | Col.cSale => r.sale.isSome
  | Col.cQuantity => r.quantity.isSome
  | Col.cUom => r.uom.isSome
  | Col.cDate => r.date.isSome
  | Col.cCustomer => r.customer.isSome
  | Col.cShipToName => r.ship_to_name.isSome
  | Col.cAddr1 => r.addr1.isSome
  | Col.cAddr2 => r.addr2.isSome
  | Col.cCity => r.city.isSome
  | Col.cState => r.state.isSome
  | Col.cPostal => r.postal.isSome
  | Col.cCountry => r.country.isSome
  | Col.cContract => r.contract.isSome
  | Col.cCustNbr => r.cust_nbr.isSome
  | Col.cNotes => r.notes.isSome
  | Col.cGpo => r.gpo.isSome
  | Col.cRebate => r.rebate.isSome
  | Col.cNet => r.net.isSome

/-- The frame built from a list of documents has a column exactly when some
document carries the field. -/
def present (frame : List RawRecord) (c : Col) : Bool :=
  frame.any (fun r => rawHas r c)

/-- The columns of the frame built from the documents, in schema order. -/
def frameCols (frame : List RawRecord) : List Col :=
  allCols.filter (present frame)

/-- A document carrying every schema field. -/
def fullRecord (r : RawRecord) : Bool :=
  allCols.all (rawHas r)

/-- ASCII lower-casing of a character list. -/
def lowerL (l : List Char) : List Char := l.map Char.toLower

/-- ASCII lower-casing of a string; models Python `str.lower` on the ASCII
strings this service compares. -/
def lowerStr (s : String) : String := ⟨lowerL s.data⟩

/-- Case-insensitive end-anchored match: models the Mongo regex
`f"{pat}$"` with option `i` applied to a key (the validated month and year
contain no regex metacharacters). -/
def endsWithCI (pat s : String) : Bool :=
  decide (lowerL pat.data <:+ lowerL s.data)

/-- Python `repr` of a string-to-string dict, which is how pandas renders a
`notes` cell. -/
def pyDictRepr (l : List (String × String)) : String :=
  let q : String := ⟨[Char.ofNat 39]⟩
  let items := l.map (fun p => q ++ p.1 ++ q ++ ": " ++ q ++ p.2 ++ q)
  "\x7b" ++ String.intercalate ", " items ++ "\x7d"

/-- Rendering of an optional rational cell: NaN (or an absent value) prints
as the empty cell, a number prints in decimal notation. -/
def optQStr : Option ℚ → String
  | none => ""
  | some q => toString q

/-- The string a `to_csv` cell holds before quoting. -/
def cellOf (r : RawRecord) : Col → String
  | Col.cId => r.id.getD ""
  | Col.cKey => r.key.getD ""
  | Col.cDistribution => r.distribution.getD ""
  | Col.cRep => r.rep.getD ""
  | Col.cItem => r.item.getD ""
  | Col.cSale => optQStr r.sale
  | Col.cQuantity => (r.quantity.map toString).getD ""
  | Col.cUom => r.uom.getD ""
  | Col.cDate => r.date.getD ""
  | Col.cCustomer => r.customer.getD ""
  | Col.cShipToName => r.ship_to_name.getD ""
  | Col.cAddr1 => r.addr1.getD ""
  | Col.cAddr2 => r.addr2.getD ""
  | Col.cCity => r.city.getD ""
  | Col.cState => r.state.getD ""
  | Col.cPostal => r.postal.getD ""
  | Col.cCountry => r.country.getD ""
  | Col.cContract => r.contract.getD ""
  | Col.cCustNbr => r.cust_nbr.getD ""
  | Col.cNotes => (r.notes.map pyDictRepr).getD ""
  | Col.cGpo => r.gpo.getD ""
  | Col.cRebate => optQStr r.rebate
  | Col.cNet => optQStr r.net

/-- Whether csv QUOTE_MINIMAL must quote the cell. -/
def needsQuote (sep : Char) (s : String) : Bool :=
  s.data.any (fun c => c == sep || c == '"' || c == '\n' || c == '\r')

/-- Doubling of embedded quote characters inside a quoted cell. -/
def escQuotes : List Char → List Char
  | [] => []
  | c :: cs => if c == '"' then '"' :: '"' :: escQuotes cs else c :: escQuotes cs

/-- QUOTE_MINIMAL rendering of one cell. -/
def renderCell (sep : Char) (s : String) : String :=
  if needsQuote sep s then ⟨'"' :: escQuotes s.data ++ ['"']⟩ else s

/-- Pieces joined by a separator element. -/
def joinWith (sep : Char) : List (List Char) → List Char
  | [] => []
  | [p] => p
  | p :: q :: r => p ++ sep :: joinWith sep (q :: r)

/-- One CSV line: rendered cells joined by the separator. -/
def rowChars (sep : Char) (cells : List String) : List Char :=
  joinWith sep (cells.map (fun s => (renderCell sep s).data))

/-- Serialization of a frame by `df.to_csv(index=False, sep=...)`: a header
line of the column names followed by one line per row, each line terminated
by a newline.  A frame with no rows has no columns and serializes as a lone
newline. -/
def csvOf (sep : Char) (cols : List Col) (frame : List RawRecord) : String :=
  if frame.isEmpty then "\n"
  else
    ⟨joinWith '\n'
        (((cols.map colName) :: frame.map (fun r => cols.map (cellOf r))).map
          (rowChars sep)) ++ ['\n']⟩

/-- The twelve month names the period endpoint accepts. -/
def monthsList : List String :=
  ["january", "february", "march", "april", "may", "june", "july", "august",
   "september", "october", "november", "december"]

/-- The explicitly supported years. -/
def yearsList : List String := ["2022", "2023"]

/-- The Mongo period query: key matches the case-insensitive regex
`f"{month}-{year}$"`.  A document without a key field never matches. -/
def periodMatch (month year : String) (r : RawRecord) : Bool :=
  match r.key with
  | some k => endsWithCI (month ++ "-" ++ year) k
  | none => false

/-- The documents the period endpoint fetches. -/
def matchedOf (month year : String) (store : List RawRecord) : List RawRecord :=
  store.filter (periodMatch month year)

/-- Validity check of a BSON object id given as a string: 24 hex digits
(`bson.ObjectId.is_valid`). -/
def isHexChar (c : Char) : Bool :=
  c.isDigit || (('a' ≤ c) && (c ≤ 'f')) || (('A' ≤ c) && (c ≤ 'F'))

/-- BSON object id validity for string input. -/
def isValidObjectId (s : String) : Bool :=
  s.data.length == 24 && s.data.all isHexChar

/-- The object id the default factory supplies when the frame has no `_id`
column.  The real factory draws a fresh id; a fixed value models it because
no claim depends on its digits. -/
def defaultOid : String := "000000000000000000000000"

/-- A validated Sale model (the pydantic `Sale` class).  Float-typed fields
hold `none` for NaN; `Optional` fields of the schema are `Option`-typed. -/
structure Sale where
  id : String
  key : String
  distribution : String
  rep : String
  item : String
  sale : Option ℚ
  quantity : Int
  uom : String
  date : String
  customer : String
  ship_to_name : String
  addr1 : String
  addr2 : Option String
  city : String
  state : String
  postal : String
  country : Option String
  contract : Option String
  cust_nbr : Option String
  notes : Option (List (String × String))
  gpo : Option String
  rebate : Option ℚ
  net : Option ℚ
deriving DecidableEq, Repr

/-- pydantic v1 validation of a required `str` field.  `has` says whether the
frame carries the column: an absent cell of a present column is NaN, which
the v1 str validator coerces to the string `"nan"`; a missing column is a
`field required` error. -/
def vReqStr (has : Bool) (v : Option String) : Option String :=
  match v with
  | some s => some s
  | none => if has then some "nan" else none

/-- pydantic v1 validation of an `Optional[str] = Field(...)` field: still
required, NaN coerces to `"nan"`. -/
def vOptStr (has : Bool) (v : Option String) : Option (Option String) :=
  match v with
  | some s => some (some s)
  | none => if has then some (some "nan") else none

/-- pydantic v1 validation of a float-typed field (`float` or
`Optional[float]`, both `Field(...)`): NaN is itself a float and passes; a
missing column is an error. -/
def vFloat (has : Bool) (v : Option ℚ) : Option (Option ℚ) :=
  match v with
  | some q => some (some q)
  | none => if has then some none else none

/-- pydantic v1 validation of the required `int` field: `int(nan)` raises,
so both a NaN cell and a missing column are errors. -/
def vInt (v : Option Int) : Option Int := v

/-- pydantic v1 validation of the required `datetime` field: NaN fails the
datetime parser and a missing column is required, so only a real value
passes (kept opaque as a string). -/
def vDate (v : Option String) : Option String := v

/-- pydantic v1 validation of `Optional[dict[str, str]] = Field(...)`: a NaN
cell fails the dict validator and a missing column is required. -/
def vNotes (v : Option (List (String × String))) :
    Option (Option (List (String × String))) :=
  v.map some

/-- Validation of the `_id` field through `PyObjectId.validate`: a string
value must be a valid object id, a NaN cell is an invalid object id, and a
missing column is filled by the default factory. -/
def vId (has : Bool) (v : Option String) : Option String :=
  match v with
  | some s => if isValidObjectId s then some s else none
  | none => if has then none else some defaultOid

/-- `Sale(**row)`: every field of the row dict is validated; any failure
raises and the whole request fails. -/
def validateSale (has : Col → Bool) (r : RawRecord) : Option Sale :=
  match vId (has Col.cId) r.id, vReqStr (has Col.cKey) r.key,
      vReqStr (has Col.cDistribution) r.distribution,
      vReqStr (has Col.cRep) r.rep, vReqStr (has Col.cItem) r.item,
      vFloat (has Col.cSale) r.sale, vInt r.quantity,
      vReqStr (has Col.cUom) r.uom, vDate r.date,
      vReqStr (has Col.cCustomer) r.customer,
      vReqStr (has Col.cShipToName) r.ship_to_name,
      vReqStr (has Col.cAddr1) r.addr1, vOptStr (has Col.cAddr2) r.addr2,
      vReqStr (has Col.cCity) r.city, vReqStr (has Col.cState) r.state,
      vReqStr (has Col.cPostal) r.postal,
      vOptStr (has Col.cCountry) r.country,
      vOptStr (has Col.cContract) r.contract,
      vOptStr (has Col.cCustNbr) r.cust_nbr, vNotes r.notes,
      vOptStr (has Col.cGpo) r.gpo, vFloat (has Col.cRebate) r.rebate,
      vFloat (has Col.cNet) r.net with
  | some i, some k, some di, some re, some it, some sa, some qu, some uo,
      some da, some cu, some sh, some a1, some a2, some ci, some st, some po,
      some co, some ct, some cn, some no, some gp, some rb, some nt =>
    some { id := i, key := k, distribution := di, rep := re, item := it,
           sale := sa, quantity := qu, uom := uo, date := da, customer := cu,
           ship_to_name := sh, addr1 := a1, addr2 := a2, city := ci,
           state := st, postal := po, country := co, contract := ct,
           cust_nbr := cn, notes := no, gpo := gp, rebate := rb, net := nt }
  | _, _, _, _, _, _, _, _, _, _, _, _, _, _, _, _, _, _, _, _, _, _, _ =>
    none

/-- Sequential validation of every row; the list comprehension aborts at the
first failure, and any failure fails the request. -/
def validateAll (has : Col → Bool) : List RawRecord → Option (List Sale)
  | [] => some []
  | r :: rs =>
    match validateSale has r, validateAll has rs with
    | some s, some ss => some (s :: ss)
    | _, _ => none

/-- Body of an HTTP response of this service: CSV text or a list of
validated Sale models. -/
inductive Body
  | text (s : String)
  | recs (l : List Sale)
deriving DecidableEq, Repr

/-- Abstracted HTTP success response: body, explicit media type (none =
framework default) and explicitly set headers. -/
structure ApiResponse where
  body : Body
  mediaType : Option String
  headers : List (String × String)
deriving DecidableEq, Repr

/-- The derived net of one row:
`x["sale"] if x["rebate"] == 0 else x["rebate"]`, on the cell values of the
row (an absent cell of a present column is NaN, which is not equal to 0). -/
def netOf (r : RawRecord) : Option ℚ :=
  if r.rebate = some 0 then r.sale else r.rebate

/-- The row with its net column overwritten by the derived value. -/
def withNet (r : RawRecord) : RawRecord :=
  { r with net := netOf r }

/-- The `df["net"] = df.apply(...)` step.  Indexing `x["rebate"]` raises
`KeyError` when the frame has no rebate column (also the empty-frame case),
and `x["sale"]` raises when some row has a zero rebate but the frame has no
sale column; either error fails the request. -/
def applyNet (store : List RawRecord) : Option (List RawRecord) :=
  if present store Col.cRebate = false then none
  else if (store.any fun r => r.rebate = some 0) &&
      (present store Col.cSale = false) then none
  else some (store.map withNet)

/-- The columns of the derived frame: the net column exists after the
assignment, every other column is present exactly when some document
carries the field (`withNet` only rewrites net). -/
def frameHas (derived : List RawRecord) (c : Col) : Bool :=
  c == Col.cNet || present derived c

/-- The `/api/sales` handler on an already-fetched store: derive net, then
serialize.  `none` is an unhandled error (HTTP 500).  The csv branch returns
the CSV string as the body with no explicit media type or headers; the other
branch returns the validated Sale models. -/
def getSales (format : String) (store : List RawRecord) : Option ApiResponse :=
  match applyNet store with
  | none => none
  | some derived =>
    if format = "csv" then
      some { body := Body.text
               (csvOf '|' (allCols.filter (frameHas derived)) derived),
             mediaType := none, headers := [] }
    else
      match validateAll (frameHas derived) derived with
      | none => none
      | some rs => some { body := Body.recs rs, mediaType := none,
                          headers := [] }

/-- The read of the whole collection (`sales.find()`), threading the store
state to make the absence of writes explicit. -/
def findAllST (db : List RawRecord) : List RawRecord × List RawRecord :=
  (db, db)

/-- The filtered read of the period query, threading the store state. -/
def findPeriodST (month year : String) (db : List RawRecord) :
    List RawRecord × List RawRecord :=
  (matchedOf month year db, db)

/-- Stateful `/api/sales` handler: fetch, then run the pure pipeline. -/
def getSalesST (format : String) (db : List RawRecord) :
    Option ApiResponse × List RawRecord :=
  let fr := findAllST db
  (getSales format fr.1, fr.2)

/-- Stateful `/api/sales/{month}/{year}` handler.  Month is validated first
(lower-cased membership in the twelve names, 404 `"Month not found"`), then
the year (membership in 2022/2023, 404 `"Year not found"`); only then is the
store queried, and the matches are returned as comma-separated CSV with
media type `text/csv` and a content-disposition attachment header. -/
def getSalesForPeriodST (month year : String) (db : List RawRecord) :
    Except String ApiResponse × List RawRecord :=
  if monthsList.contains (lowerStr month) = false then
    (Except.error "Month not found", db)
  else if yearsList.contains year = false then
    (Except.error "Year not found", db)
  else
    let fr := findPeriodST month year db
    (Except.ok { body := Body.text (csvOf ',' (frameCols fr.1) fr.1),
                 mediaType := some "text/csv",
                 headers := [("Content-Disposition",
                              "attachment; filename=export.csv")] },
     fr.2)

/-- Pure view of the period handler. -/
def getSalesForPeriod (month year : String) (store : List RawRecord) :
    Except String ApiResponse :=
  (getSalesForPeriodST month year store).1

/-- Whether a period request failed (the handler only fails with 404). -/
def isErrB : Except String ApiResponse → Bool
  | Except.error _ => true
  | Except.ok _ => false

/-- The ok payload of a period response, if any. -/
def okPart : Except String ApiResponse → Option ApiResponse
  | Except.ok r => some r
  | Except.error _ => none

/-- The validated records of a succeeded non-csv response, if any. -/
def bodyRecs (o : Option ApiResponse) : Option (List Sale) :=
  o.bind fun resp =>
    match resp.body with
    | Body.recs l => some l
    | Body.text _ => none

/-- Case-sensitive lookup of an explicitly set response header. -/
def headerLookup (hs : List (String × String)) (k : String) : Option String :=
  (hs.find? (fun p => p.1 == k)).map (fun p => p.2)

/-- Concrete shape-conforming document, after the worked example of the Sale
schema. -/
def baseRec : RawRecord :=
  { id := some "63c849031aeef6dd27ed3bac",
    key := some "NDC-DECEMBER-2022",
    distribution := some "NDC",
    rep := some "Rep40",
    item := some "851",
    sale := some 68,
    quantity := some 1,
    uom := some "CS",
    date := some "2022-12-22",
    customer := some "Marc Trager",
    ship_to_name := some "Marc Trager",
    addr1 := some "14273 Mulberry Dr",
    addr2 := some "",
    city := some "Los Gatos",
    state := some "CA",
    postal := some "95032",
    country := some "",
    contract := some "SPECIAL PRICING",
    cust_nbr := some "",
    notes := some [("invoice", "3857526")],
    gpo := some "",
    rebate := some 0,
    net := some 68 }

/-- Placeholder Sale used to name elements of computed lists in closed
statements. -/
def dummySale : Sale :=
  { id := defaultOid, key := "", distribution := "", rep := "", item := "",
    sale := none, quantity := 0, uom := "", date := "", customer := "",
    ship_to_name := "", addr1 := "", addr2 := none, city := "", state := "",
    postal := "", country := none, contract := none, cust_nbr := none,
    notes := none, gpo := none, rebate := none, net := none }

/-- Placeholder response used to name computed responses in closed
statements. -/
def dummyResp : ApiResponse :=
  { body := Body.text "", mediaType := none, headers := [] }

/-- Splitting a character list at every occurrence of a separator; always
returns at least one piece. -/
def splitOnC (sep : Char) : List Char → List (List Char)
  | [] => [[]]
  | c :: cs =>
    match splitOnC sep cs with
    | [] => [[]]
    | p :: ps => if c == sep then [] :: p :: ps else (c :: p) :: ps

/-- Dropping of the trailing empty line left by a final newline. -/
def trimLast (ls : List (List Char)) : List (List Char) :=
  if ls.getLast? = some [] then ls.dropLast else ls

/-- Re-parsing of a delimited text: split into lines, drop the trailing empty
line left by the final newline, split every line at the separator. -/
def parseTable (sep : Char) (s : String) : List (List String) :=
  (trimLast (splitOnC '\n' s.data)).map
    (fun l => (splitOnC sep l).map (fun cs => (⟨cs⟩ : String)))

/-- A frame all of whose cells need no quoting for the given separator. -/
def cleanTable (sep : Char) (cols : List Col) (frame : List RawRecord) : Bool :=
  frame.all (fun r => cols.all (fun c => !needsQuote sep (cellOf r c)))

theorem splitOnC_ne_nil (sep : Char) (l : List Char) : splitOnC sep l ≠ [] := by
  cases l with
  | nil => simp [splitOnC]
  | cons c cs =>
    simp only [splitOnC]
    cases h : splitOnC sep cs with
    | nil => simp
    | cons p ps =>
      split
      · simp
      · split <;> simp

theorem joinWith_append_nil (sep : Char) :
    ∀ ps : List (List Char), ps ≠ [] →
      joinWith sep (ps ++ [[]]) = joinWith sep ps ++ [sep]
  | [], h => absurd rfl h
  | [p], _ => by simp [joinWith]
  | p :: q :: r, _ => by
    have ih := joinWith_append_nil sep (q :: r) (by simp)
    simp only [List.cons_append, List.append_eq, joinWith] at ih ⊢
    rw [ih]
    simp

theorem mem_joinWith (sep : Char) :
    ∀ (ps : List (List Char)) (c : Char), c ∈ joinWith sep ps →
      c = sep ∨ ∃ p ∈ ps, c ∈ p
  | [], _, h => by simp [joinWith] at h
  | [p], c, h => by
    simp only [joinWith] at h
    exact Or.inr ⟨p, by simp, h⟩
  | p :: q :: r, c, h => by
    simp only [joinWith, List.mem_append, List.mem_cons] at h
    rcases h with h | h | h
    · exact Or.inr ⟨p, by simp, h⟩
    · exact Or.inl h
    · rcases mem_joinWith sep (q :: r) c h with h | ⟨p', hp', hc⟩
      · exact Or.inl h
      · exact Or.inr ⟨p', by simp [List.mem_cons] at hp' ⊢; tauto, hc⟩

theorem splitOnC_nosep (sep : Char) :
    ∀ p : List Char, sep ∉ p → splitOnC sep p = [p]
  | [], _ => rfl
  | c :: cs, h => by
    have hc : c ≠ sep := fun he => h (he ▸ List.mem_cons_self c cs)
    have ih := splitOnC_nosep sep cs (fun hm => h (List.mem_cons_of_mem c hm))
    simp only [splitOnC, ih]
    simp [hc]

theorem splitOnC_append (sep : Char) :
    ∀ (p t : List Char), sep ∉ p →
      splitOnC sep (p ++ sep :: t) = p :: splitOnC sep t
  | [], t, _ => by
    simp only [List.nil_append, splitOnC]
    cases h : splitOnC sep t with
    | nil => exact absurd h (splitOnC_ne_nil sep t)
    | cons q qs => simp
  | c :: cs, t, h => by
    have hc : c ≠ sep := fun he => h (he ▸ List.mem_cons_self c cs)
    have ih := splitOnC_append sep cs t (fun hm => h (List.mem_cons_of_mem c hm))
    simp only [List.cons_append, splitOnC, List.append_eq]
    rw [ih]
    simp [hc]

theorem splitOnC_joinWith (sep : Char) :
    ∀ ps : List (List Char), ps ≠ [] → (∀ p ∈ ps, sep ∉ p) →
      splitOnC sep (joinWith sep ps) = ps
  | [], h, _ => absurd rfl h
  | [p], _, hcl => by
    simp only [joinWith]
    exact splitOnC_nosep sep p (hcl p (by simp))
  | p :: q :: r, _, hcl => by
    have ih := splitOnC_joinWith sep (q :: r) (by simp)
      (fun x hx => hcl x (List.mem_cons_of_mem p hx))
    simp only [joinWith] at ih ⊢
    rw [splitOnC_append sep p _ (hcl p (by simp)), ih]

theorem clean_no_char (sep : Char) (s : String)
    (h : needsQuote sep s = false) : ∀ ch ∈ s.data, ch ≠ sep ∧ ch ≠ '\n' := by
  intro ch hch
  unfold needsQuote at h
  rw [List.any_eq_false] at h
  have hc := h ch hch
  simp only [Bool.or_eq_true, beq_iff_eq, not_or] at hc
  exact ⟨hc.1.1.1, hc.1.2⟩

theorem renderCell_clean (sep : Char) (s : String)
    (h : needsQuote sep s = false) : renderCell sep s = s := by
  simp [renderCell, h]

theorem trimLast_concat (ls : List (List Char)) :
    trimLast (ls ++ [[]]) = ls := by
  simp [trimLast, List.getLast?_concat, List.dropLast_concat]

theorem mk_data_map (l : List String) :
    (l.map String.data).map (fun cs => (⟨cs⟩ : String)) = l := by
  rw [List.map_map]
  have h : ((fun cs => (⟨cs⟩ : String)) ∘ String.data) = id := funext fun _ => rfl
  rw [h, List.map_id]

theorem rowChars_clean (sep : Char) (row : List String)
    (h : ∀ s ∈ row, needsQuote sep s = false) :
    rowChars sep row = joinWith sep (row.map String.data) := by
  unfold rowChars
  congr 1
  exact List.map_congr_left fun s hs => by rw [renderCell_clean sep s (h s hs)]

theorem parseTable_rows (sep : Char) (hsep : sep ≠ '\n')
    (rows : List (List String)) (hrows : rows ≠ [])
    (hcells : ∀ row ∈ rows, row ≠ [] ∧ ∀ s ∈ row, needsQuote sep s = false) :
    parseTable sep ⟨joinWith '\n' (rows.map (rowChars sep)) ++ ['\n']⟩
      = rows := by
  have hL : rows.map (rowChars sep) ≠ [] := by
    simpa using hrows
  have hnolf : ∀ p ∈ rows.map (rowChars sep) ++ [[]], '\n' ∉ p := by
    intro p hp hmem
    rcases List.mem_append.mp hp with hp | hp
    · obtain ⟨row, hrow, rfl⟩ := List.mem_map.mp hp
      rw [rowChars_clean sep row (hcells row hrow).2] at hmem
      rcases mem_joinWith sep _ _ hmem with h | ⟨q, hq, hcq⟩
      · exact hsep h.symm
      · obtain ⟨s, hs, rfl⟩ := List.mem_map.mp hq
        exact (clean_no_char sep s ((hcells row hrow).2 s hs) _ hcq).2 rfl
    · simp at hp
      subst hp
      simp at hmem
  have hbody : (⟨joinWith '\n' (rows.map (rowChars sep)) ++ ['\n']⟩ :
      String).data = joinWith '\n' ((rows.map (rowChars sep)) ++ [[]]) := by
    show joinWith '\n' (rows.map (rowChars sep)) ++ ['\n'] = _
    rw [joinWith_append_nil '\n' _ hL]
  unfold parseTable
  rw [hbody, splitOnC_joinWith '\n' _ (by simp) hnolf, trimLast_concat,
    List.map_map]
  have hrow : ∀ row ∈ rows,
      ((fun l => (splitOnC sep l).map (fun cs => (⟨cs⟩ : String))) ∘
        rowChars sep) row = row := by
    intro row hrow
    have hne : row.map String.data ≠ [] := by
      simpa using (hcells row hrow).1
    have hnosep : ∀ p ∈ row.map String.data, sep ∉ p := by
      intro p hp hmem
      obtain ⟨s, hs, rfl⟩ := List.mem_map.mp hp
      exact (clean_no_char sep s ((hcells row hrow).2 s hs) _ hmem).1 rfl
    show ((splitOnC sep (rowChars sep row)).map (fun cs => (⟨cs⟩ : String)))
      = row
    rw [rowChars_clean sep row (hcells row hrow).2,
      splitOnC_joinWith sep _ hne hnosep, mk_data_map]
  calc rows.map ((fun l => (splitOnC sep l).map (fun cs => (⟨cs⟩ : String))) ∘
        rowChars sep)
      = rows.map id := List.map_congr_left hrow
    _ = rows := List.map_id rows

theorem parseTable_csvOf (sep : Char) (cols : List Col)
    (frame : List RawRecord) (hsep : sep ≠ '\n') (hframe : frame ≠ [])
    (hcols : cols ≠ []) (hclean : cleanTable sep cols frame = true)
    (hhdr : ∀ c ∈ cols, needsQuote sep (colName c) = false) :
    parseTable sep (csvOf sep cols frame) =
      (cols.map colName) :: frame.map (fun r => cols.map (cellOf r)) := by
  have hnotempty : frame.isEmpty = false := by
    cases frame with
    | nil => exact absurd rfl hframe
    | cons r rs => rfl
  unfold csvOf
  rw [hnotempty]
  simp only [Bool.false_eq_true, if_false]
  apply parseTable_rows sep hsep _ (by simp)
  intro row hrow
  rcases List.mem_cons.mp hrow with hrow | hrow
  · subst hrow
    refine ⟨by simpa using hcols, ?_⟩
    intro s hs
    obtain ⟨c, hc, rfl⟩ := List.mem_map.mp hs
    exact hhdr c hc
  · obtain ⟨r, hr, rfl⟩ := List.mem_map.mp hrow
    refine ⟨by simpa using hcols, ?_⟩
    intro s hs
    obtain ⟨c, hc, rfl⟩ := List.mem_map.mp hs
    unfold cleanTable at hclean
    rw [List.all_eq_true] at hclean
    have := hclean r hr
    rw [List.all_eq_true] at this
    have := this c hc
    simpa using this

theorem applyNet_eq (store derived : List RawRecord)
    (h : applyNet store = some derived) : derived = store.map withNet := by
  unfold applyNet at h
  split at h
  · exact absurd h (by simp)
  · split at h
    · exact absurd h (by simp)
    · injection h with h
      exact h.symm

theorem applyNet_store_ne (store derived : List RawRecord)
    (h : applyNet store = some derived) : store ≠ [] := by
  intro he
  subst he
  simp [applyNet, present] at h

/-- C3 (confirmed): the period endpoint fails with 404 exactly when the
lower-cased month is not one of the twelve month names or the year is not
2022 or 2023; the month check runs first, so an invalid month yields detail
"Month not found" even when the year is also invalid, and a valid month with
an invalid year yields "Year not found". -/
theorem c3_validation (m y : String) (store : List RawRecord) :
    (isErrB (getSalesForPeriod m y store) = true ↔
      (monthsList.contains (lowerStr m) = false ∨
        yearsList.contains y = false)) ∧
    (monthsList.contains (lowerStr m) = false →
      getSalesForPeriod m y store = Except.error "Month not found") ∧
    (monthsList.contains (lowerStr m) = true →
      yearsList.contains y = false →
      getSalesForPeriod m y store = Except.error "Year not found") := by
  unfold getSalesForPeriod getSalesForPeriodST findPeriodST
  cases hm : monthsList.contains (lowerStr m) <;>
    cases hy : yearsList.contains y <;>
      simp [isErrB, hm, hy]

/-- Closed instance of C3 at the concrete invalid inputs of the spec
examples. -/
theorem c3_validation_witness :
    getSalesForPeriod "smarch" "2099" [] = Except.error "Month not found" ∧
    getSalesForPeriod "december" "2099" [] = Except.error "Year not found" :=
  ⟨(c3_validation "smarch" "2099" []).2.1 (by decide),
   (c3_validation "december" "2099" []).2.2 (by decide) (by decide)⟩

/-- C8 (confirmed): with the store threaded as explicit state, both handlers
leave it unchanged, and re-running the same request against the resulting
state returns the same output. -/
theorem c8_deterministic_readonly (format m y : String)
    (db : List RawRecord) :
    (getSalesST format db).2 = db ∧
    (getSalesForPeriodST m y db).2 = db ∧
    (getSalesST format ((getSalesST format db).2)).1 =
      (getSalesST format db).1 ∧
    (getSalesForPeriodST m y ((getSalesForPeriodST m y db).2)).1 =
      (getSalesForPeriodST m y db).1 := by
  have h1 : (getSalesST format db).2 = db := rfl
  have h2 : (getSalesForPeriodST m y db).2 = db := by
    unfold getSalesForPeriodST
    split
    · rfl
    · split <;> rfl
  exact ⟨h1, h2, by rw [h1], by rw [h2]⟩

/-- C9 (confirmed): with a valid month and year and no matching key, the
period endpoint still succeeds, answering the empty frame serialization (a
lone newline, no data rows) as a CSV attachment; it never raises 404 for an
empty result set. -/
theorem c9_empty_result (m y : String) (store : List RawRecord)
    (hm : monthsList.contains (lowerStr m) = true)
    (hy : yearsList.contains y = true)
    (hmt : matchedOf m y store = []) :
    getSalesForPeriod m y store = Except.ok
      { body := Body.text "\n", mediaType := some "text/csv",
        headers := [("Content-Disposition",
                     "attachment; filename=export.csv")] } ∧
    isErrB (getSalesForPeriod m y store) = false := by
  have h1 : getSalesForPeriod m y store = Except.ok
      { body := Body.text "\n", mediaType := some "text/csv",
        headers := [("Content-Disposition",
                     "attachment; filename=export.csv")] } := by
    unfold getSalesForPeriod getSalesForPeriodST findPeriodST
    rw [hm, hy]
    simp [hmt, csvOf]
  exact ⟨h1, by rw [h1]; rfl⟩

/-- Closed instance of C9: a valid request over an empty store succeeds with
the empty CSV body. -/
theorem c9_empty_result_witness :
    getSalesForPeriod "december" "2022" [] = Except.ok
      { body := Body.text "\n", mediaType := some "text/csv",
        headers := [("Content-Disposition",
                     "attachment; filename=export.csv")] } :=
  (c9_empty_result "december" "2022" [] (by decide) (by decide)
    (by decide)).1

/-- C2 (corrected): counterexample to the claim as stated.  The query regex
is `f"{month}-{year}$"` with no leading dash, so for the valid request
month `may`, year `2022`, a stored record keyed `XMAY-2022` is matched and
returned although its key does not end with `-may-2022`. -/
theorem c2_counterexample :
    ¬ (∀ (m y : String) (store : List RawRecord),
        monthsList.contains (lowerStr m) = true →
        yearsList.contains y = true →
        matchedOf m y store = store.filter
          (fun r => endsWithCI ("-" ++ m ++ "-" ++ y) (r.key.getD ""))) := by
  intro h
  have hx := h "may" "2022" [{ baseRec with key := some "XMAY-2022" }]
    (by decide) (by decide)
  exact absurd hx (by decide)

/-- C2 (amended): for any two month spellings with the same lower-casing the
period endpoint returns identical responses, and a stored record is matched
exactly when its key ends, case-insensitively, with `{month}-{year}` (no
leading dash). -/
theorem c2_period_filter (m m' y : String) (store : List RawRecord)
    (h : lowerStr m = lowerStr m') :
    getSalesForPeriod m y store = getSalesForPeriod m' y store ∧
    (∀ r ∈ store, (r ∈ matchedOf m y store ↔
      ∃ k pre, r.key = some k ∧
        lowerL k.data = pre ++ lowerL (m ++ "-" ++ y).data)) := by
  have hdata : lowerL (m ++ "-" ++ y).data = lowerL (m' ++ "-" ++ y).data := by
    have hd : List.map Char.toLower m.data = List.map Char.toLower m'.data :=
      congrArg String.data h
    have e1 : (m ++ "-" ++ y).data = m.data ++ "-".data ++ y.data := rfl
    have e2 : (m' ++ "-" ++ y).data = m'.data ++ "-".data ++ y.data := rfl
    rw [e1, e2]
    unfold lowerL
    simp only [List.map_append]
    rw [hd]
  have hmatch : ∀ r, periodMatch m y r = periodMatch m' y r := by
    intro r
    unfold periodMatch
    cases r.key with
    | none => rfl
    | some k =>
      unfold endsWithCI
      rw [hdata]
  constructor
  · have hcont : monthsList.contains (lowerStr m) =
        monthsList.contains (lowerStr m') := by rw [h]
    have hfil : store.filter (periodMatch m y) =
        store.filter (periodMatch m' y) :=
      List.filter_congr fun a _ => hmatch a
    unfold getSalesForPeriod getSalesForPeriodST findPeriodST matchedOf
    rw [hcont, hfil]
  · intro r hr
    unfold matchedOf
    rw [List.mem_filter]
    simp only [hr, true_and]
    unfold periodMatch
    cases hkey : r.key with
    | none =>
      simp
    | some k =>
      unfold endsWithCI
      constructor
      · intro hm2
        obtain ⟨t, ht⟩ := of_decide_eq_true hm2
        exact ⟨k, t, rfl, ht.symm⟩
      · rintro ⟨k', pre, hk, hpre⟩
        have he : k = k' := Option.some.inj hk
        subst he
        exact decide_eq_true ⟨pre, hpre.symm⟩

/-- Closed instance of C2 (amended): the spec example pair, a request with
upper-case month equals the lower-case request. -/
theorem c2_period_filter_witness :
    getSalesForPeriod "DECEMBER" "2022" [baseRec] =
      getSalesForPeriod "december" "2022" [baseRec] :=
  (c2_period_filter "DECEMBER" "december" "2022" [baseRec] (by decide)).1

theorem vFloat_inv (b : Bool) (v w : Option ℚ) (h : vFloat b v = some w) :
    w = v := by
  cases v with
  | some q =>
    simp [vFloat] at h
    exact h.symm
  | none =>
    cases b <;> simp [vFloat] at h
    exact h.symm

theorem validateSale_floats (has : Col → Bool) (r : RawRecord) (s : Sale)
    (h : validateSale has r = some s) :
    s.sale = r.sale ∧ s.rebate = r.rebate ∧ s.net = r.net := by
  unfold validateSale at h
  split at h
  · injection h with h
    subst h
    exact ⟨vFloat_inv _ _ _ (by assumption), vFloat_inv _ _ _ (by assumption),
      vFloat_inv _ _ _ (by assumption)⟩
  · exact absurd h (by simp)

theorem validateAll_mem (has : Col → Bool) :
    ∀ (l : List RawRecord) (rs : List Sale), validateAll has l = some rs →
      ∀ s ∈ rs, ∃ r ∈ l, validateSale has r = some s
  | [], rs, h => by
    simp only [validateAll] at h
    injection h with h
    subst h
    simp
  | r :: l, rs, h => by
    simp only [validateAll] at h
    cases hv : validateSale has r with
    | none => rw [hv] at h; exact absurd h (by simp)
    | some s0 =>
      rw [hv] at h
      cases hrest : validateAll has l with
      | none => rw [hrest] at h; exact absurd h (by simp)
      | some ss =>
        rw [hrest] at h
        injection h with h
        subst h
        intro s hs
        rcases List.mem_cons.mp hs with hs | hs
        · subst hs
          exact ⟨r, by simp, hv⟩
        · obtain ⟨r', hr', hval⟩ := validateAll_mem has l ss hrest s hs
          exact ⟨r', by simp [hr'], hval⟩

theorem validateAll_length (has : Col → Bool) :
    ∀ (l : List RawRecord) (rs : List Sale), validateAll has l = some rs →
      rs.length = l.length
  | [], rs, h => by
    simp only [validateAll] at h
    injection h with h
    subst h
    rfl
  | r :: l, rs, h => by
    simp only [validateAll] at h
    cases hv : validateSale has r with
    | none => rw [hv] at h; exact absurd h (by simp)
    | some s0 =>
      rw [hv] at h
      cases hrest : validateAll has l with
      | none => rw [hrest] at h; exact absurd h (by simp)
      | some ss =>
        rw [hrest] at h
        injection h with h
        subst h
        simp [validateAll_length has l ss hrest]

theorem validateAll_fail (has : Col → Bool) :
    ∀ (l : List RawRecord) (r : RawRecord), r ∈ l →
      validateSale has r = none → validateAll has l = none
  | [], r, hr, _ => absurd hr (by simp)
  | r0 :: l, r, hr, hv => by
    rcases List.mem_cons.mp hr with he | hm
    · subst he
      simp only [validateAll, hv]
    · simp only [validateAll, validateAll_fail has l r hm hv]
      split <;> simp_all

theorem getSales_none (format : String) (store : List RawRecord)
    (h : applyNet store = none) : getSales format store = none := by
  unfold getSales
  rw [h]

theorem getSales_some (format : String) (store derived : List RawRecord)
    (h : applyNet store = some derived) :
    getSales format store =
      (if format = "csv" then
        some { body := Body.text
                 (csvOf '|' (allCols.filter (frameHas derived)) derived),
               mediaType := none, headers := [] }
      else
        match validateAll (frameHas derived) derived with
        | none => none
        | some rs => some { body := Body.recs rs, mediaType := none,
                            headers := [] }) := by
  unfold getSales
  rw [h]

theorem withNet_floats (r : RawRecord) :
    (withNet r).net = (if (withNet r).rebate = some 0 then (withNet r).sale
      else (withNet r).rebate) := by
  unfold withNet netOf
  dsimp only

/-- C1 (corrected): counterexample to the claim as stated.  In a store where
one record carries a rebate and another omits the field, the record without
a rebate gets `net = NaN` (the frame cell is NaN, which is not equal to 0),
not `net = sale`: the second returned record has `sale = 68`, `rebate`
missing and `net` missing, so `net ≠ sale`. -/
theorem c1_counterexample :
    ¬ (∀ (store : List RawRecord) (rs : List Sale),
        bodyRecs (getSales "json" store) = some rs →
        ∀ s ∈ rs, (s.rebate = none ∨ s.rebate = some 0) →
          s.net = s.sale) := by
  intro h
  have hx := h [baseRec, { baseRec with rebate := none }]
    ((bodyRecs (getSales "json"
      [baseRec, { baseRec with rebate := none }])).getD [])
    (by decide)
    (((bodyRecs (getSales "json"
      [baseRec, { baseRec with rebate := none }])).getD []).getD 1 dummySale)
    (by decide) (Or.inl (by decide))
  exact absurd hx (by decide)

/-- C1 (amended): in both branches of the all-sales endpoint the derived net
equals sale exactly when the fetched rebate cell is present and zero, and
equals the fetched rebate cell otherwise (in particular an absent rebate
yields an absent net, not the sale).  The first conjunct covers the
validated records of the non-csv branch, the second the serialized net cell
of the csv branch. -/
theorem c1_net_rule :
    (∀ (format : String) (store : List RawRecord) (rs : List Sale),
        bodyRecs (getSales format store) = some rs →
        ∀ s ∈ rs, s.net = (if s.rebate = some 0 then s.sale
          else s.rebate)) ∧
    (∀ (store derived : List RawRecord), applyNet store = some derived →
        ∀ r ∈ store, cellOf (withNet r) Col.cNet =
          (if r.rebate = some 0 then cellOf r Col.cSale
            else cellOf r Col.cRebate)) := by
  constructor
  · intro format store rs h s hs
    unfold bodyRecs at h
    cases ha : applyNet store with
    | none =>
      rw [getSales_none format store ha] at h
      exact absurd h (by simp)
    | some derived =>
      rw [getSales_some format store derived ha] at h
      by_cases hf : format = "csv"
      · rw [if_pos hf] at h
        exact absurd h (by simp)
      · rw [if_neg hf] at h
        cases hv : validateAll (frameHas derived) derived with
        | none => rw [hv] at h; exact absurd h (by simp)
        | some rs0 =>
          rw [hv] at h
          simp at h
          subst h
          obtain ⟨r, hr, hval⟩ :=
            validateAll_mem (frameHas derived) derived rs0 hv s hs
          obtain ⟨hsale, hrebate, hnet⟩ :=
            validateSale_floats (frameHas derived) r s hval
          rw [applyNet_eq store derived ha] at hr
          obtain ⟨r0, _, rfl⟩ := List.mem_map.mp hr
          rw [hsale, hrebate, hnet]
          exact withNet_floats r0
  · intro store derived _ r _
    show optQStr (netOf r) = _
    unfold netOf
    split
    · rfl
    · rfl

/-- Closed instance of C1 (amended): the net of the first record returned
for the example store follows the corrected rule. -/
theorem c1_net_rule_witness :
    (((bodyRecs (getSales "json" [baseRec])).getD []).getD 0 dummySale).net =
      (if (((bodyRecs (getSales "json" [baseRec])).getD []).getD 0
            dummySale).rebate = some 0
        then (((bodyRecs (getSales "json" [baseRec])).getD []).getD 0
            dummySale).sale
        else (((bodyRecs (getSales "json" [baseRec])).getD []).getD 0
            dummySale).rebate) :=
  c1_net_rule.1 "json" [baseRec]
    ((bodyRecs (getSales "json" [baseRec])).getD []) (by decide)
    (((bodyRecs (getSales "json" [baseRec])).getD []).getD 0 dummySale)
    (by decide)

theorem rawHas_withNet (r : RawRecord) (c : Col) (hc : c ≠ Col.cNet) :
    rawHas (withNet r) c = rawHas r c := by
  cases c <;> first | rfl | exact absurd rfl hc

theorem withNet_full (r : RawRecord) (h : fullRecord r = true) :
    fullRecord (withNet r) = true := by
  unfold fullRecord at h ⊢
  rw [List.all_eq_true] at h ⊢
  intro c hc
  by_cases hcn : c = Col.cNet
  · subst hcn
    show (netOf r).isSome = true
    unfold netOf
    split
    · have := h Col.cSale (by simp [allCols])
      simpa [rawHas] using this
    · have := h Col.cRebate (by simp [allCols])
      simpa [rawHas] using this
  · rw [rawHas_withNet r c hcn]
    exact h c hc

theorem present_full (frame : List RawRecord) (hne : frame ≠ [])
    (hfull : ∀ r ∈ frame, fullRecord r = true) (c : Col)
    (hc : c ∈ allCols) : present frame c = true := by
  cases frame with
  | nil => exact absurd rfl hne
  | cons r rs =>
    unfold present
    rw [List.any_eq_true]
    refine ⟨r, by simp, ?_⟩
    have hf := hfull r (by simp)
    unfold fullRecord at hf
    rw [List.all_eq_true] at hf
    exact hf c hc

theorem frameCols_full (frame : List RawRecord) (hne : frame ≠ [])
    (hfull : ∀ r ∈ frame, fullRecord r = true) :
    frameCols frame = allCols := by
  unfold frameCols
  exact List.filter_eq_self.mpr fun c hc => present_full frame hne hfull c hc

theorem getSales_csv_full (store : List RawRecord) (hne : store ≠ [])
    (hfull : ∀ r ∈ store, fullRecord r = true) :
    getSales "csv" store = some
      { body := Body.text (csvOf '|' allCols (store.map withNet)),
        mediaType := none, headers := [] } := by
  have hfull' : ∀ r ∈ store.map withNet, fullRecord r = true := by
    intro r hr
    obtain ⟨r0, hr0, rfl⟩ := List.mem_map.mp hr
    exact withNet_full r0 (hfull r0 hr0)
  have hne' : store.map withNet ≠ [] := by simpa using hne
  have hreb : present store Col.cRebate = true :=
    present_full store hne hfull Col.cRebate (by simp [allCols])
  have hsale : present store Col.cSale = true :=
    present_full store hne hfull Col.cSale (by simp [allCols])
  have ha : applyNet store = some (store.map withNet) := by
    unfold applyNet
    rw [if_neg (by simp [hreb]), if_neg (by simp [hsale])]
  rw [getSales_some "csv" store (store.map withNet) ha, if_pos rfl]
  have hcols : allCols.filter (frameHas (store.map withNet)) = allCols := by
    apply List.filter_eq_self.mpr
    intro c hc
    unfold frameHas
    rw [present_full (store.map withNet) hne' hfull' c hc]
    simp
  rw [hcols]

/-- C4 (corrected): counterexample to the claim as stated.  For a store
whose single record omits the rebate field the frame has no rebate column,
the net-derivation lambda raises KeyError on `x["rebate"]`, and the csv
branch answers nothing at all (unhandled error) instead of delimited text. -/
theorem c4_counterexample :
    ¬ (∀ (store : List RawRecord), ∃ resp body,
        getSales "csv" store = some resp ∧ resp.body = Body.text body ∧
        headerLookup resp.headers "Content-Disposition" = none) := by
  intro h
  obtain ⟨resp, body, hr, _, _⟩ := h [{ baseRec with rebate := none }]
  have hn : getSales "csv" [{ baseRec with rebate := none }] = none := by
    decide
  rw [hn] at hr
  exact Option.noConfusion hr

/-- C4 (amended): for every nonempty store of shape-conforming records on
which the net derivation succeeds, the csv branch returns the whole derived
frame as pipe-delimited text with a header row of the column names and no
content-disposition header; re-parsing the body (given quoting-free cells)
recovers the header and one row per fetched record. -/
theorem c4_csv_branch (store : List RawRecord) (hne : store ≠ [])
    (hfull : ∀ r ∈ store, fullRecord r = true)
    (hclean : cleanTable '|' allCols (store.map withNet) = true) :
    ∃ resp, getSales "csv" store = some resp ∧
      headerLookup resp.headers "Content-Disposition" = none ∧
      resp.body = Body.text (csvOf '|' allCols (store.map withNet)) ∧
      parseTable '|' (csvOf '|' allCols (store.map withNet)) =
        (allCols.map colName) ::
          (store.map withNet).map (fun r => allCols.map (cellOf r)) ∧
      ((store.map withNet).map (fun r => allCols.map (cellOf r))).length =
        store.length := by
  refine ⟨_, getSales_csv_full store hne hfull, rfl, rfl, ?_, by simp⟩
  exact parseTable_csvOf '|' allCols (store.map withNet) (by decide)
    (by simpa using hne) (by decide) hclean (by decide)

/-- Closed instance of C4 (amended) at the one-record example store. -/
theorem c4_csv_branch_witness :
    ∃ resp, getSales "csv" [baseRec] = some resp ∧
      headerLookup resp.headers "Content-Disposition" = none ∧
      resp.body = Body.text (csvOf '|' allCols ([baseRec].map withNet)) ∧
      parseTable '|' (csvOf '|' allCols ([baseRec].map withNet)) =
        (allCols.map colName) ::
          ([baseRec].map withNet).map (fun r => allCols.map (cellOf r)) ∧
      (([baseRec].map withNet).map (fun r => allCols.map (cellOf r))).length =
        ([baseRec] : List RawRecord).length :=
  c4_csv_branch [baseRec] (by decide) (by decide) (by decide)

/-- C6 (confirmed): for every valid month and year the period endpoint
answers a CSV attachment: media type `text/csv`, header
`Content-Disposition: attachment; filename=export.csv`, and a
comma-delimited body over the matched records (re-parsable against the
frame columns for quoting-free shape-conforming matches); the final conjunct
records that the comma delimiter differs from the pipe of the all-sales
endpoint on the example record. -/
theorem c6_csv_attachment (m y : String) (store : List RawRecord)
    (hm : monthsList.contains (lowerStr m) = true)
    (hy : yearsList.contains y = true) :
    ∃ resp, getSalesForPeriod m y store = Except.ok resp ∧
      resp.mediaType = some "text/csv" ∧
      headerLookup resp.headers "Content-Disposition" =
        some "attachment; filename=export.csv" ∧
      resp.body = Body.text (csvOf ','
        (frameCols (matchedOf m y store)) (matchedOf m y store)) ∧
      (matchedOf m y store ≠ [] →
        (∀ r ∈ matchedOf m y store, fullRecord r = true) →
        cleanTable ',' allCols (matchedOf m y store) = true →
        parseTable ',' (csvOf ','
            (frameCols (matchedOf m y store)) (matchedOf m y store)) =
          (allCols.map colName) ::
            (matchedOf m y store).map (fun r => allCols.map (cellOf r))) ∧
      csvOf ',' allCols [baseRec] ≠ csvOf '|' allCols [baseRec] := by
  have hok : getSalesForPeriod m y store = Except.ok
      { body := Body.text (csvOf ','
          (frameCols (matchedOf m y store)) (matchedOf m y store)),
        mediaType := some "text/csv",
        headers := [("Content-Disposition",
                     "attachment; filename=export.csv")] } := by
    unfold getSalesForPeriod getSalesForPeriodST findPeriodST
    rw [hm, hy]
    simp
  refine ⟨_, hok, rfl, rfl, rfl, ?_, by decide⟩
  intro hne hfull hclean
  rw [frameCols_full _ hne hfull]
  exact parseTable_csvOf ',' allCols _ (by decide) hne (by decide) hclean
    (by decide)

/-- Closed instance of C6 at the spec example request. -/
theorem c6_csv_attachment_witness :
    ∃ resp, getSalesForPeriod "december" "2022" [baseRec] =
        Except.ok resp ∧
      resp.mediaType = some "text/csv" ∧
      headerLookup resp.headers "Content-Disposition" =
        some "attachment; filename=export.csv" ∧
      resp.body = Body.text (csvOf ','
        (frameCols (matchedOf "december" "2022" [baseRec]))
        (matchedOf "december" "2022" [baseRec])) ∧
      (matchedOf "december" "2022" [baseRec] ≠ [] →
        (∀ r ∈ matchedOf "december" "2022" [baseRec],
          fullRecord r = true) →
        cleanTable ',' allCols (matchedOf "december" "2022" [baseRec]) =
          true →
        parseTable ',' (csvOf ','
            (frameCols (matchedOf "december" "2022" [baseRec]))
            (matchedOf "december" "2022" [baseRec])) =
          (allCols.map colName) ::
            (matchedOf "december" "2022" [baseRec]).map
              (fun r => allCols.map (cellOf r))) ∧
      csvOf ',' allCols [baseRec] ≠ csvOf '|' allCols [baseRec] :=
  c6_csv_attachment "december" "2022" [baseRec] (by decide) (by decide)

/-- Record with a zero rebate and a stored net different from its sale; used
to exhibit that the period endpoint serializes the stored net unchanged. -/
def c7Rec : RawRecord :=
  { baseRec with rebate := some 0, sale := some 5, net := some 99 }

/-- C7 (confirmed): the period endpoint applies no net derivation: its body
is the comma CSV of exactly the matched store records, each matched record
is a store record serialized with its stored net cell, and on a concrete
record with zero rebate the output differs from what serializing the
net-derived record would give. -/
theorem c7_no_net_derivation (m y : String) (store : List RawRecord)
    (resp : ApiResponse)
    (h : okPart (getSalesForPeriod m y store) = some resp) :
    resp.body = Body.text (csvOf ','
      (frameCols (matchedOf m y store)) (matchedOf m y store)) ∧
    (∀ r ∈ matchedOf m y store, r ∈ store ∧
      cellOf r Col.cNet = optQStr r.net) ∧
    csvOf ',' (frameCols [c7Rec]) [c7Rec] ≠
      csvOf ',' (frameCols [withNet c7Rec]) [withNet c7Rec] := by
  refine ⟨?_, ?_, by decide⟩
  · unfold getSalesForPeriod getSalesForPeriodST findPeriodST at h
    by_cases hm : monthsList.contains (lowerStr m) = false
    · rw [if_pos hm] at h
      simp [okPart] at h
    · rw [if_neg hm] at h
      by_cases hy : yearsList.contains y = false
      · rw [if_pos hy] at h
        simp [okPart] at h
      · rw [if_neg hy] at h
        simp [okPart] at h
        subst h
        rfl
  · intro r hr
    unfold matchedOf at hr
    exact ⟨(List.mem_filter.mp hr).1, rfl⟩

/-- Closed instance of C7: the serialized body over the concrete store keeps
the stored net (99), not the derived one. -/
theorem c7_no_net_derivation_witness :
    ((okPart (getSalesForPeriod "december" "2022" [c7Rec])).getD
        dummyResp).body =
      Body.text (csvOf ','
        (frameCols (matchedOf "december" "2022" [c7Rec]))
        (matchedOf "december" "2022" [c7Rec])) :=
  (c7_no_net_derivation "december" "2022" [c7Rec]
    ((okPart (getSalesForPeriod "december" "2022" [c7Rec])).getD dummyResp)
    (by decide)).1

/-- C5 (corrected): counterexample to the claim as stated.  For a store
whose single record has no key field the frame has no key column, so
`Sale(**row)` raises a `field required` validation error and the non-csv
branch of the all-sales endpoint answers nothing (unhandled error) instead
of a one-element list. -/
theorem c5_counterexample :
    ¬ (∀ (store : List RawRecord), ∃ rs : List Sale,
        bodyRecs (getSales "json" store) = some rs ∧
        rs.length = store.length) := by
  intro h
  obtain ⟨rs, hr, _⟩ := h [{ baseRec with key := none }]
  have hn : bodyRecs (getSales "json" [{ baseRec with key := none }]) =
      none := by decide
  rw [hn] at hr
  exact Option.noConfusion hr

/-- C5 (amended): whenever the non-csv branch succeeds, it returns exactly
one validated Sale per fetched store record, each obtained by validating the
net-derived row of a store record against the Sale field types. -/
theorem c5_records_shape (format : String) (store : List RawRecord)
    (rs : List Sale) (h : bodyRecs (getSales format store) = some rs) :
    rs.length = store.length ∧
    ∀ s ∈ rs, ∃ r ∈ store,
      validateSale (frameHas (store.map withNet)) (withNet r) = some s := by
  unfold bodyRecs at h
  cases ha : applyNet store with
  | none =>
    rw [getSales_none format store ha] at h
    exact absurd h (by simp)
  | some derived =>
    rw [getSales_some format store derived ha] at h
    by_cases hf : format = "csv"
    · rw [if_pos hf] at h
      exact absurd h (by simp)
    · rw [if_neg hf] at h
      cases hv : validateAll (frameHas derived) derived with
      | none => rw [hv] at h; exact absurd h (by simp)
      | some rs0 =>
        rw [hv] at h
        simp at h
        subst h
        have hde := applyNet_eq store derived ha
        constructor
        · rw [validateAll_length (frameHas derived) derived rs0 hv, hde]
          simp
        · intro s hs
          obtain ⟨r, hr, hval⟩ :=
            validateAll_mem (frameHas derived) derived rs0 hv s hs
          rw [hde] at hr hval
          obtain ⟨r0, hr0, rfl⟩ := List.mem_map.mp hr
          exact ⟨r0, hr0, hval⟩

/-- Closed instance of C5 (amended): the example store yields exactly one
record. -/
theorem c5_records_shape_witness :
    ((bodyRecs (getSales "json" [baseRec])).getD []).length =
      ([baseRec] : List RawRecord).length :=
  (c5_records_shape "json" [baseRec]
    ((bodyRecs (getSales "json" [baseRec])).getD []) (by decide)).1

/-- A record missing some field the Sale schema types as non-optional. -/
def missingReq (r : RawRecord) : Bool :=
  r.key.isNone || r.distribution.isNone || r.rep.isNone || r.item.isNone ||
  r.sale.isNone || r.quantity.isNone || r.uom.isNone || r.date.isNone ||
  r.customer.isNone || r.ship_to_name.isNone || r.addr1.isNone ||
  r.city.isNone || r.state.isNone || r.postal.isNone

/-- A record whose stored object id fails `ObjectId.is_valid`. -/
def badId (r : RawRecord) : Bool :=
  match r.id with
  | some s => !isValidObjectId s
  | none => false

theorem validateSale_key_none (has : Col → Bool) (r : RawRecord)
    (hk : vReqStr (has Col.cKey) r.key = none) :
    validateSale has r = none := by
  unfold validateSale
  split
  · simp_all
  · rfl

theorem validateSale_id_bad (has : Col → Bool) (r : RawRecord) (oid : String)
    (hid : r.id = some oid) (hbad : isValidObjectId oid = false) :
    validateSale has r = none := by
  have hv : vId (has Col.cId) r.id = none := by
    rw [hid]
    simp [vId, hbad]
  unfold validateSale
  split
  · simp_all
  · rfl

/-- C10 (corrected): counterexample to the claim as stated.  The csv branch
does not serialize every store shape: a single record with a zero rebate and
no sale field makes the derivation lambda raise KeyError on `x["sale"]`, so
the csv branch fails on a store whose record omits a required Sale field
instead of succeeding regardless of shape. -/
theorem c10_counterexample :
    ¬ (∀ (store : List RawRecord),
        ((∃ r ∈ store, missingReq r = true ∨ badId r = true) →
          getSales "json" store = none) ∧
        (∃ resp, getSales "csv" store = some resp)) := by
  intro h
  obtain ⟨resp, hr⟩ :=
    (h [{ baseRec with rebate := some 0, sale := none }]).2
  have hn : getSales "csv" [{ baseRec with rebate := some 0, sale := none }]
      = none := by decide
  rw [hn] at hr
  exact Option.noConfusion hr

/-- C10 (amended): on any store where the net derivation succeeds, the csv
branch always answers a text body, while the non-csv branch fails both when
the key column is missing from the whole frame and when some record carries
an invalid object id: the two branches impose different shape requirements
on the same store. -/
theorem c10_branch_asymmetry (store derived : List RawRecord)
    (h : applyNet store = some derived) :
    (∃ body, getSales "csv" store =
      some { body := Body.text body, mediaType := none, headers := [] }) ∧
    ((∀ r ∈ store, r.key.isNone = true) → getSales "json" store = none) ∧
    (∀ r ∈ store, ∀ oid, r.id = some oid → isValidObjectId oid = false →
      getSales "json" store = none) := by
  have hde := applyNet_eq store derived h
  have hjson : ∀ r0, r0 ∈ derived →
      validateSale (frameHas derived) r0 = none →
      getSales "json" store = none := by
    intro r0 hr0 hval
    rw [getSales_some "json" store derived h, if_neg (by decide)]
    rw [validateAll_fail (frameHas derived) derived r0 hr0 hval]
  refine ⟨?_, ?_, ?_⟩
  · rw [getSales_some "csv" store derived h, if_pos rfl]
    exact ⟨_, rfl⟩
  · intro hall
    have hne : store ≠ [] := applyNet_store_ne store derived h
    obtain ⟨r1, hr1mem⟩ := List.exists_mem_of_ne_nil store hne
    have hkeycol : present derived Col.cKey = false := by
      unfold present
      rw [List.any_eq_false]
      intro x hx
      rw [hde] at hx
      obtain ⟨x0, hx0, rfl⟩ := List.mem_map.mp hx
      have hx0k : x0.key.isNone = true := hall x0 hx0
      show ¬ rawHas (withNet x0) Col.cKey = true
      rw [rawHas_withNet x0 Col.cKey (by decide)]
      unfold rawHas
      simp [Option.isNone_iff_eq_none.mp hx0k]
    have hr1 : withNet r1 ∈ derived := by
      rw [hde]
      exact List.mem_map_of_mem withNet hr1mem
    apply hjson (withNet r1) hr1
    apply validateSale_key_none
    have hk1 : r1.key = none :=
      Option.isNone_iff_eq_none.mp (hall r1 hr1mem)
    unfold vReqStr frameHas
    rw [show (withNet r1).key = r1.key from rfl, hk1, hkeycol]
    simp
  · intro r hr oid hid hbad
    have hrd : withNet r ∈ derived := by
      rw [hde]
      exact List.mem_map_of_mem withNet hr
    apply hjson (withNet r) hrd
    exact validateSale_id_bad (frameHas derived) (withNet r) oid
      (by rw [show (withNet r).id = r.id from rfl, hid]) hbad

/-- Closed instance of C10 (amended): on the keyless one-record store the
csv branch answers text while the json branch fails. -/
theorem c10_branch_asymmetry_witness :
    (∃ body, getSales "csv" [{ baseRec with key := none }] =
      some { body := Body.text body, mediaType := none, headers := [] }) ∧
    getSales "json" [{ baseRec with key := none }] = none := by
  have h := c10_branch_asymmetry [{ baseRec with key := none }]
    (([{ baseRec with key := none }] : List RawRecord).map withNet)
    (by decide)
  exact ⟨h.1, h.2.1 (by decide)⟩
